import Mathlib

/-!
Verification of the FinInsightBot financial query pipeline.

This file gives a shallow embedding of the pipeline implemented in
`app/agents` (query resolution, intent analysis, conditional data fetching,
answer synthesis) together with the helper logic in `app/clients`, and proves
or refutes the specified properties of that code.

External collaborators (LLM calls, Yahoo Finance, SerpAPI news search,
Chroma similarity search) are modelled as an `Oracle` record of abstract
functions; fallible collaborator calls return `Except String` values, the
`String` standing for the exception message that the Python code catches.

Python strings are modelled as Lean `String`s; `str.upper` / `str.lower` /
`str.title` are embedded for ASCII letters (the only characters the analyzed
logic distinguishes), and the `in` substring test is embedded via
`List.isInfixOf` on the character lists.
-/

/-- ASCII embedding of Python `str.upper` on one character. -/
def pyUpperChar (c : Char) : Char :=
  if 97 ≤ c.toNat ∧ c.toNat ≤ 122 then Char.ofNat (c.toNat - 32) else c

/-- ASCII embedding of Python `str.lower` on one character. -/
def pyLowerChar (c : Char) : Char :=
  if 65 ≤ c.toNat ∧ c.toNat ≤ 90 then Char.ofNat (c.toNat + 32) else c

/-- Embedding of Python `str.upper`. -/
def pyUpper (s : String) : String := String.mk (s.data.map pyUpperChar)

/-- Embedding of Python `str.lower`. -/
def pyLower (s : String) : String := String.mk (s.data.map pyLowerChar)

/-- Whether the first list is an initial segment of the second. -/
def listStartsWith : List Char → List Char → Bool
  | [], _ => true
  | _ :: _, [] => false
  | a :: as, b :: bs => a = b && listStartsWith as bs

/-- Whether the first list occurs contiguously inside the second. -/
def listContains (needle : List Char) : List Char → Bool
  | [] => needle.isEmpty
  | b :: bs => listStartsWith needle (b :: bs) || listContains needle bs

/-- Embedding of the Python substring test `needle in hay`. -/
def pySubstr (needle hay : String) : Bool := listContains needle.data hay.data

/-- ASCII alphabetic test (cased letters, the ones `str.title` recases). -/
def isAsciiAlpha (c : Char) : Bool :=
  (65 ≤ c.toNat ∧ c.toNat ≤ 90) ∨ (97 ≤ c.toNat ∧ c.toNat ≤ 122)

/-- Embedding of Python `str.title` over a character list: the first letter of
each maximal letter run is uppercased and the rest are lowercased. -/
def pyTitleChars : List Char → Bool → List Char
  | [], _ => []
  | c :: rest, prevAlpha =>
    (if isAsciiAlpha c then (if prevAlpha then pyLowerChar c else pyUpperChar c) else c)
      :: pyTitleChars rest (isAsciiAlpha c)

/-- Embedding of Python `str.title`. -/
def pyTitle (s : String) : String := String.mk (pyTitleChars s.data false)

/-- Python whitespace test used by `str.strip`. -/
def isPySpace (c : Char) : Bool :=
  c.toNat = 32 ∨ (9 ≤ c.toNat ∧ c.toNat ≤ 13)

/-- Embedding of Python `str.strip()`: drops leading and trailing
whitespace. -/
def pyStrip (s : String) : String :=
  String.mk (((s.data.dropWhile isPySpace).reverse.dropWhile isPySpace).reverse)

/-- Embedding of Python `str.replace(a, b)` for one-character pattern and
replacement (the only form the analyzed code uses, `replace("_", " ")`). -/
def pyReplace1 (a b : Char) (s : String) : String :=
  String.mk (s.data.map fun c => if c = a then b else c)

/-- Word character of the `re` module's `\b` boundary, restricted to ASCII:
letters, digits and underscore. -/
def isWordChar (c : Char) : Bool :=
  isAsciiAlpha c ∨ ('0' ≤ c ∧ c ≤ '9') ∨ c = '_'

/-- Uppercase ASCII letter test (the `[A-Z]` character class). -/
def isUpperAlpha (c : Char) : Bool := 65 ≤ c.toNat ∧ c.toNat ≤ 90

/-- Helper for `wordRuns`: the accumulator holds the current (reversed) run
of word characters. -/
def wordRunsAux : List Char → List Char → List (List Char)
  | [], cur => if cur.isEmpty then [] else [cur.reverse]
  | c :: rest, cur =>
    if isWordChar c then wordRunsAux rest (c :: cur)
    else if cur.isEmpty then wordRunsAux rest []
    else cur.reverse :: wordRunsAux rest []

/-- Maximal runs of word characters of a character list; the units delimited
by the regex word boundary `\b`. -/
def wordRuns (l : List Char) : List (List Char) := wordRunsAux l []

/-- Embedding of `re.findall(r'\b[A-Z]{1,5}\b', s)`: the maximal word-character
runs made only of uppercase letters, of length 1 to 5.  (A run containing a
digit, an underscore or a letter of the wrong case has no interior word
boundary, so no shorter match fires inside it.) -/
def regexTokens (s : String) : List String :=
  (wordRuns s.data).filterMap fun r =>
    if r.all isUpperAlpha ∧ 1 ≤ r.length ∧ r.length ≤ 5 then some (String.mk r) else none

/-- Decimal digit test used by the year pattern `\d`. -/
def isDigitChar (c : Char) : Bool := '0' ≤ c ∧ c ≤ '9'

/-- Scanner behind `_extract_year`: leftmost occurrence of
`\b(20\d{2}|19\d{2})\b` in the character list.  The boolean argument records
whether the character before the current position is a word character. -/
def findYear : List Char → Bool → Option String
  | c1 :: c2 :: c3 :: c4 :: rest, prevW =>
    let boundaryAfter : Bool := match rest with | [] => true | r :: _ => !isWordChar r
    if !prevW && ((c1 = '2' && c2 = '0') || (c1 = '1' && c2 = '9'))
        && isDigitChar c3 && isDigitChar c4 && boundaryAfter then
      some (String.mk [c1, c2, c3, c4])
    else
      findYear (c2 :: c3 :: c4 :: rest) (isWordChar c1)
  | _, _ => none
termination_by l _ => l.length
decreasing_by simp

/-- Embedding of `_extract_year` (`app/agents/nodes/data_fetching.py`):
first match of `\b(20\d{2}|19\d{2})\b`, as a string, if any. -/
def extractYear (text : String) : Option String := findYear text.data false

/-- Python values stored in the per-ticker metric dictionaries
(`fundamental_data` / `technical_data` values).  Numbers are modelled as
rationals; string rendering of numbers is a stand-in for Python float repr
(no analyzed property depends on the digits produced). -/
inductive PyVal
  | none
  | num (q : ℚ)
  | str (s : String)
deriving DecidableEq

/-- `d.get(k)` on an insertion-ordered dictionary modelled as a key-value
list. -/
def dget (d : List (String × α)) (k : String) : Option α :=
  (d.find? (fun p => p.1 == k)).map (·.2)

/-- `d.get(k, v)`. -/
def dgetD (d : List (String × α)) (k : String) (v : α) : α := (dget d k).getD v

/-- `d[k] = v` on the dictionary model: replaces the value in place when the
key exists, otherwise appends (Python dict insertion-order semantics). -/
def dictInsert (d : List (String × α)) (k : String) (v : α) : List (String × α) :=
  if d.any (fun p => p.1 == k) then d.map (fun p => if p.1 == k then (k, v) else p)
  else d ++ [(k, v)]

/-- Python truthiness of a `PyVal`. -/
def pyTruthy : PyVal → Bool
  | PyVal.none => false
  | PyVal.num q => q != 0
  | PyVal.str s => s != ""

/-- Decimal rendering stand-in for Python `str()` of a number. -/
def ratDecimalString (q : ℚ) : String :=
  if q.den = 1 then toString q.num ++ ".0" else toString q.num ++ "/" ++ toString q.den

/-- Python `str()` of a `PyVal`. -/
def pyStr : PyVal → String
  | PyVal.none => "None"
  | PyVal.num q => ratDecimalString q
  | PyVal.str s => s

/-- `{value:.2f}` fixed-two-decimal rendering (rounding half up as a stand-in
for float rounding; no analyzed property depends on tie behaviour). -/
def pyFormatFixed2 (q : ℚ) : String :=
  let c : Int := Int.floor (q * 100 + 1 / 2)
  let sign := if c < 0 then "-" else ""
  let a := c.natAbs
  sign ++ toString (a / 100) ++ "." ++ (if a % 100 < 10 then "0" else "") ++ toString (a % 100)

/-- Groups of three digit characters, taken from a reversed digit list. -/
def chunk3 : List Char → List (List Char)
  | [] => []
  | a :: [] => [[a]]
  | a :: b :: [] => [[a, b]]
  | a :: b :: c :: rest => [a, b, c] :: chunk3 rest

/-- `{value:,.0f}` comma-grouped integer rendering of a numeric `PyVal`
(non-numeric values would make the Python format call raise; they are
rendered as-is here and never arise from the modelled clients). -/
def pyFormatComma0 : PyVal → String
  | PyVal.num q =>
    let c : Int := Int.floor (q + 1 / 2)
    let sign := if c < 0 then "-" else ""
    let ds := (toString c.natAbs).data
    sign ++ String.mk (List.intercalate [','] (((chunk3 ds.reverse).map List.reverse).reverse))
  | PyVal.str s => s
  | PyVal.none => "None"

/-- A LangChain `Document`: optional identity, page content, string-valued
metadata (`metadata.get` returns `Option.none` for a missing key). -/
structure Doc where
  id : Option String := Option.none
  page_content : String := ""
  metadata : List (String × String) := []
deriving DecidableEq

/-- One chat turn, as the `{"role": ..., "content": ...}` dictionaries in
`FinancialAgentState.messages`. -/
structure Msg where
  role : String
  content : String
deriving DecidableEq

/-- The per-ticker metric dictionary produced by the Yahoo Finance client. -/
abbrev FinDict := List (String × PyVal)

/-- Embedding of `FinancialAgentState` (`app/agents/financial_agent_state.py`)
with its pydantic defaults. -/
structure FinancialAgentState where
  messages : List Msg := []
  query : String := ""
  ticker : List String := []
  is_financial : Bool := false
  needs_fundamental : Bool := false
  needs_technical : Bool := false
  needs_news : Bool := false
  needs_secfiling : Bool := false
  fundamental_data : List (String × FinDict) := []
  technical_data : List (String × FinDict) := []
  news_articles : List Doc := []
  retrieved_docs : List Doc := []
  answer : String := ""
deriving DecidableEq

/-- A JSON array element of the raw `ticker` field returned by the analysis
LLM: a string, or something that is not a string. -/
inductive RawVal
  | str (s : String)
  | nonstr
deriving DecidableEq

/-- The raw `ticker` field of the parsed LLM response
(`result.get("ticker", [])` in `analyze_request`): JSON null, a bare string,
an array, or some other JSON value. -/
inductive RawTicker
  | none
  | str (s : String)
  | list (xs : List RawVal)
  | other
deriving DecidableEq

/-- The parsed structured-extraction response of the analysis LLM.  The
boolean fields absorb the `bool(result.get(key, False))` coercions applied by
`analyze_request`; the `ticker` field is kept raw because its cleaning logic
is part of the analyzed code. -/
structure RawAnalysis where
  is_financial : Bool := false
  ticker : RawTicker := RawTicker.list []
  needs_fundamental : Bool := false
  needs_technical : Bool := false
  needs_news : Bool := false
  needs_secfiling : Bool := false
  intent : String := "general"
deriving DecidableEq

/-- The flat analysis dictionary returned by `analyze_request`. -/
structure AnalysisResult where
  is_financial : Bool
  ticker : List String
  needs_fundamental : Bool
  needs_technical : Bool
  needs_news : Bool
  needs_secfiling : Bool
  intent : String
deriving DecidableEq

/-- The prompt inputs handed to the generation LLM by
`generate_final_answer` (`chain.invoke({...})`). -/
structure GenInput where
  history : String
  question : String
  doc_context : String
  market_context : String
  news_context : String
deriving DecidableEq

/-- External collaborators, as black boxes.  `Except String` models a Python
call that may raise (the `String` is the exception text caught by the code).
Collaborators whose Python wrappers catch internally and return a degraded
value are modelled as total functions: `get_fundamental_data` /
`get_technical_data` return a metrics-or-error dictionary, and
`generate_news_queries` returns its (possibly empty) query list. -/
structure Oracle where
  rewrite_query : String → String → Except String String
  analyze_llm : String → Except String RawAnalysis
  get_fundamental_data : String → FinDict
  get_technical_data : String → FinDict
  generate_news_queries : String → Option String → List String
  news_search : String → Except String (List Doc)
  doc_search : Option (List String) → String → Except String (List Doc)
  answer_llm : GenInput → Except String String

/-- An apostrophe, kept out of string literals. -/
def apos : String := String.mk [Char.ofNat 39]

/-- `[t.strip().upper() for t in raw_ticker ...]`: the ticker-cleaning logic
of `analyze_request` (`app/agents/request_analyzer_agent.py`). -/
def cleanTickerList : RawTicker → List String
  | RawTicker.none => []
  | RawTicker.str s => if pyStrip s ≠ "" then [pyUpper (pyStrip s)] else []
  | RawTicker.list xs =>
    xs.filterMap fun x =>
      match x with
      | RawVal.str t => if pyStrip t ≠ "" then some (pyUpper (pyStrip t)) else Option.none
      | RawVal.nonstr => Option.none
  | RawTicker.other => []

/-- The fixed stopword set of the regex fallback in `analyze_request`. -/
def commonWords : List String :=
  ["I", "A", "AN", "THE", "IS", "AND", "OR", "IN", "ON", "TO", "FOR", "OF", "ETF", "USD"]

/-- The regex fallback branch of `analyze_request`: uppercase-token scan of
the uppercased query, stopword and length filtering, and keyword-driven
`needs_news` / `needs_secfiling` flags. -/
def analyzeRequestFallback (query : String) : AnalysisResult :=
  let tickers := regexTokens (pyUpper query)
  let filtered := tickers.filter fun t => !(commonWords.contains t) && decide (2 ≤ t.length)
  { is_financial := decide (0 < filtered.length)
    ticker := filtered
    needs_fundamental := false
    needs_technical := false
    needs_news := pySubstr "news" (pyLower query) || pySubstr "headline" (pyLower query)
    needs_secfiling := pySubstr "sec" (pyLower query) || pySubstr "10-" (pyLower query)
    intent := "general" }

/-- `analyze_request`: primary LLM structured extraction with the cleaning of
lines 163-188, falling back to the regex analysis on any failure. -/
def analyze_request (o : Oracle) (query : String) : AnalysisResult :=
  match o.analyze_llm query with
  | Except.ok r =>
    { is_financial := r.is_financial
      ticker := cleanTickerList r.ticker
      needs_fundamental := r.needs_fundamental
      needs_technical := r.needs_technical
      needs_news := r.needs_news
      needs_secfiling := r.needs_secfiling
      intent := r.intent }
  | Except.error _ => analyzeRequestFallback query

/-- The latest `user`-role message, scanning from the end
(`for msg in reversed(state.messages)`). -/
def latestUserMsg (msgs : List Msg) : Option String :=
  (msgs.reverse.find? (fun m => m.role == "user")).map (·.content)

/-- Role-prefixed, newline-joined rendering of a message list (used both for
the resolver history and the synthesizer history block). -/
def historyStrOf (msgs : List Msg) : String :=
  String.intercalate "\n" (msgs.map (fun m => pyUpper m.role ++ ": " ++ m.content))

/-- Node `resolve_query` (`resolve_query_with_history` in
`app/agents/nodes/analysis.py`). -/
def resolve_query_with_history (o : Oracle) (s : FinancialAgentState) : FinancialAgentState :=
  if s.messages = [] then { s with query := "", is_financial := false }
  else
    match latestUserMsg s.messages with
    | Option.none => { s with query := "", is_financial := false }
    | some m =>
      if s.messages.length = 1 then { s with query := m }
      else
        match o.rewrite_query (historyStrOf s.messages.dropLast) m with
        | Except.ok r => { s with query := r }
        | Except.error _ => { s with query := m }

/-- Node `analyze` (`analyze_user_query` in `app/agents/nodes/analysis.py`):
runs `analyze_request` on the resolved query and stores the six flags. -/
def analyze_user_query (o : Oracle) (s : FinancialAgentState) : FinancialAgentState :=
  let analysis := analyze_request o s.query
  { s with
    is_financial := analysis.is_financial
    ticker := analysis.ticker
    needs_fundamental := analysis.needs_fundamental
    needs_technical := analysis.needs_technical
    needs_news := analysis.needs_news
    needs_secfiling := analysis.needs_secfiling }

/-- The `fundamental_data` value returned by node `fetch_fundamental`
(`fetch_fundamental_data` in `app/agents/nodes/data_fetching.py`). -/
def fundamentalResult (o : Oracle) (s : FinancialAgentState) : List (String × FinDict) :=
  if !s.is_financial || !s.needs_fundamental || s.ticker.isEmpty then []
  else s.ticker.foldl (fun acc t => dictInsert acc t (o.get_fundamental_data t)) []

/-- Node `fetch_fundamental`. -/
def fetch_fundamental_data (o : Oracle) (s : FinancialAgentState) : FinancialAgentState :=
  { s with fundamental_data := fundamentalResult o s }

/-- The `technical_data` value returned by node `fetch_technical`. -/
def technicalResult (o : Oracle) (s : FinancialAgentState) : List (String × FinDict) :=
  if !s.is_financial || !s.needs_technical || s.ticker.isEmpty then []
  else s.ticker.foldl (fun acc t => dictInsert acc t (o.get_technical_data t)) []

/-- Node `fetch_technical` (`fetch_technical_data`). -/
def fetch_technical_data (o : Oracle) (s : FinancialAgentState) : FinancialAgentState :=
  { s with technical_data := technicalResult o s }

/-- Executes each generated search query in order and accumulates the result
lists (`all_news.extend(results)`); a raised search error aborts the whole
accumulation, as in the Python `try` block. -/
def runNewsQueries (o : Oracle) (queries : List String) (acc : List Doc) :
    Except String (List Doc) :=
  queries.foldlM (fun a q => (o.news_search q).map (fun rs => a ++ rs)) acc

/-- The raw accumulated news list of `fetch_news`: per-ticker query rounds
when tickers are present, otherwise one general round. -/
def gatherNews (o : Oracle) (s : FinancialAgentState) : Except String (List Doc) :=
  if !s.ticker.isEmpty then
    s.ticker.foldlM
      (fun a t => runNewsQueries o (o.generate_news_queries s.query (some t)) a) []
  else runNewsQueries o (o.generate_news_queries s.query Option.none) []

/-- The deduplication loop of `fetch_news`: keeps a document when its
`source` metadata is present, non-empty and not seen before. -/
def dedupBySourceAux : List Doc → List String → List Doc
  | [], _ => []
  | d :: rest, seen =>
    match dget d.metadata "source" with
    | some src =>
      if src ≠ "" ∧ src ∉ seen then d :: dedupBySourceAux rest (src :: seen)
      else dedupBySourceAux rest seen
    | Option.none => dedupBySourceAux rest seen

/-- Deduplication by canonical source URL, first occurrence wins. -/
def dedupBySource (docs : List Doc) : List Doc := dedupBySourceAux docs []

/-- The `news_articles` value returned by node `fetch_news`. -/
def newsResult (o : Oracle) (s : FinancialAgentState) : List Doc :=
  if !s.is_financial || !s.needs_news then []
  else
    match gatherNews o s with
    | Except.error _ => []
    | Except.ok all_news => (dedupBySource all_news).take 5

/-- Node `fetch_news`. -/
def fetch_news (o : Oracle) (s : FinancialAgentState) : FinancialAgentState :=
  { s with news_articles := newsResult o s }

/-- High-value section markers of `_section_score` (score +3). -/
def highValueKeys : List String :=
  ["item 7", "management" ++ apos ++ "s discussion", "managements discussion", "md&a",
   "item 1a", "risk factors", "item 1:", "item 1.", "business",
   "item 7a", "quantitative and qualitative", "item 8", "financial statements"]

/-- Neutral section markers of `_section_score` (score +1). -/
def neutralKeys : List String := ["item 2", "properties", "legal proceedings", "market for"]

/-- Low-value section markers of `_section_score` (score -2). -/
def lowValueKeys : List String := ["signatures", "index", "exhibit", "controls and procedures"]

/-- `_section_score` (`app/agents/nodes/data_fetching.py`). -/
def sectionScore (title : String) : Int :=
  if title = "" then 0
  else
    let t := pyLower title
    if highValueKeys.any (fun k => pySubstr k t) then 3
    else if neutralKeys.any (fun k => pySubstr k t) then 1
    else if lowValueKeys.any (fun k => pySubstr k t) then -2
    else 0

/-- `_rerank_docs`: stable descending sort by section score (Python `sorted`
with `reverse=True` is stable, as is `List.mergeSort`). -/
def rerankDocs (docs : List Doc) : List Doc :=
  docs.mergeSort fun a b =>
    decide (sectionScore (dgetD b.metadata "section_title" "")
      ≤ sectionScore (dgetD a.metadata "section_title" ""))

/-- The uppercased requested tickers (`tickers_upper`). -/
def tickersUpper (s : FinancialAgentState) : List String := s.ticker.map pyUpper

/-- The Chroma metadata filter built by `retrieve_documents`: single-ticker
exact match or multi-ticker `$in` match, both modelled as membership of
`company_ticker` in the uppercased ticker list; no filter without tickers. -/
def docFilter (s : FinancialAgentState) : Option (List String) :=
  if s.ticker.isEmpty then Option.none else some (tickersUpper s)

/-- The retrieval query, extended with the ticker names when present
(`f"{state.query} {ticker_str}"`). -/
def enhancedQuery (s : FinancialAgentState) : String :=
  if s.ticker.isEmpty then s.query
  else s.query ++ " " ++ String.intercalate " " s.ticker

/-- The post-retrieval ticker narrowing test:
`d.metadata.get('company_ticker', '').upper() in tickers_upper`. -/
def tickerMatches (tu : List String) (d : Doc) : Bool :=
  tu.contains (pyUpper (dgetD d.metadata "company_ticker" ""))

/-- The refined re-query text used when the top-ranked section looks
uninformative. -/
def refinedQuery (q : String) : String :=
  q ++ " Item 7 Management" ++ apos ++
    "s Discussion and Analysis OR Item 1 Business OR Item 8 Financial Statements"

/-- Merge identity key: explicit `id` when truthy, else `source_file`
metadata when truthy, else Python object identity — modelled by the position
in the concatenated list, since each retrieval returns fresh objects. -/
inductive DocKey
  | fromId (s : String)
  | fromFile (s : String)
  | fromObj (n : Nat)
deriving DecidableEq

/-- Fallback part of the merge identity key (`source_file` or object id). -/
def docKeyFile (pos : Nat) (d : Doc) : DocKey :=
  match dget d.metadata "source_file" with
  | some f => if f ≠ "" then DocKey.fromFile f else DocKey.fromObj pos
  | Option.none => DocKey.fromObj pos

/-- `getattr(d, 'id', None) or d.metadata.get('source_file') or id(d)`. -/
def docKey (pos : Nat) (d : Doc) : DocKey :=
  match d.id with
  | some i => if i ≠ "" then DocKey.fromId i else docKeyFile pos d
  | Option.none => docKeyFile pos d

/-- The merge-dedupe loop of the refined re-query: keep each document whose
identity key was not seen before. -/
def mergeUniqueAux : List (Nat × Doc) → List DocKey → List Doc
  | [], _ => []
  | (i, d) :: rest, seen =>
    let k := docKey i d
    if k ∈ seen then mergeUniqueAux rest seen
    else d :: mergeUniqueAux rest (k :: seen)

/-- `merged[:8]`: merge-dedupe of the original and refined result sets,
capped at 8. -/
def mergeDocs (docs more : List Doc) : List Doc :=
  (mergeUniqueAux (docs ++ more).enum []).take 8

/-- The post-retrieval ticker narrowing of `retrieve_documents`: keep only
the passages whose `company_ticker` matches, unless that would empty the
list. -/
def narrowByTicker (tu : List String) (docs : List Doc) : List Doc :=
  let filtered := docs.filter (tickerMatches tu)
  if !filtered.isEmpty then filtered else docs

/-- The year narrowing of `retrieve_documents`: when the query contains a
4-digit year, keep only the passages whose `period_end` contains it, unless
that would empty the list. -/
def narrowByYear (q : String) (docs : List Doc) : List Doc :=
  match extractYear q with
  | some y =>
    let f2 := docs.filter fun d => pySubstr y (dgetD d.metadata "period_end" "")
    if !f2.isEmpty then f2 else docs
  | Option.none => docs

/-- The body of the `try` block of `retrieve_documents`: retrieval, optional
ticker and year narrowing, rerank, and the refined re-query merge when the
top section is uninformative.  A raised collaborator error escapes as
`Except.error`, caught by `retrieve_documents`. -/
def retrieveCore (o : Oracle) (s : FinancialAgentState) : Except String (List Doc) :=
  match o.doc_search (docFilter s) (enhancedQuery s) with
  | Except.error e => Except.error e
  | Except.ok docs0 =>
    if docs0.isEmpty then Except.ok docs0
    else
      let docs1 := if !s.ticker.isEmpty then narrowByTicker (tickersUpper s) docs0 else docs0
      let docs3 := rerankDocs (narrowByYear s.query docs1)
      let topTitle :=
        match docs3 with
        | [] => ""
        | d :: _ => pyLower (dgetD d.metadata "section_title" "")
      if pySubstr "signatures" topTitle || pySubstr "item 16" topTitle then
        match o.doc_search (docFilter s) (refinedQuery s.query) with
        | Except.error e => Except.error e
        | Except.ok more =>
          if !more.isEmpty then Except.ok (mergeDocs docs3 (rerankDocs more))
          else Except.ok docs3
      else Except.ok docs3

/-- The `retrieved_docs` value returned by node `retrieve_docs`
(`retrieve_documents`). -/
def docsResult (o : Oracle) (s : FinancialAgentState) : List Doc :=
  if !s.is_financial || !s.needs_secfiling then []
  else
    match retrieveCore o s with
    | Except.error _ => []
    | Except.ok docs => docs

/-- Node `retrieve_docs`. -/
def retrieve_documents (o : Oracle) (s : FinancialAgentState) : FinancialAgentState :=
  { s with retrieved_docs := docsResult o s }

/-- The guard deciding whether a per-ticker metric dictionary gets a block in
the market context: `if f_data and "error" not in str(f_data.get("error", "")):`
(`generate_final_answer`, `app/agents/nodes/response.py`). -/
def blockCheck (d : FinDict) : Bool :=
  !d.isEmpty && !(pySubstr "error" (pyStr (dgetD d "error" (PyVal.str ""))))

/-- The fundamental-analysis block of one ticker. -/
def fundamentalBlock (ticker : String) (f : FinDict) : String :=
  String.intercalate "\n"
    [ "📊 FUNDAMENTAL ANALYSIS for " ++ ticker ++ " (Retrieved from Yahoo Finance):",
      "• Price: $" ++ pyStr (dgetD f "current_price" (PyVal.str "N/A")),
      if pyTruthy (dgetD f "market_cap" PyVal.none) then
        "• Market Cap: $" ++ pyFormatComma0 (dgetD f "market_cap" PyVal.none)
      else "• Market Cap: N/A",
      "• P/E Ratio: " ++ pyStr (dgetD f "pe_ratio" (PyVal.str "N/A")),
      "• EPS: $" ++ pyStr (dgetD f "eps" (PyVal.str "N/A")),
      "• 52W Range: $" ++ pyStr (dgetD f "52w_low" (PyVal.str "N/A")) ++ " – $"
        ++ pyStr (dgetD f "52w_high" (PyVal.str "N/A")) ]

/-- One formatted line of the technical block: numeric values are rendered
with two decimals under an uppercased name, string values under a title-cased
name, `None` values are skipped. -/
def technicalLine (kv : String × PyVal) : Option String :=
  match kv.2 with
  | PyVal.num q =>
    some ("• " ++ pyUpper (pyReplace1 '_' ' ' kv.1) ++ ": " ++ pyFormatFixed2 q)
  | PyVal.str v => some ("• " ++ pyTitle (pyReplace1 '_' ' ' kv.1) ++ ": " ++ v)
  | PyVal.none => Option.none

/-- The technical-analysis block of one ticker. -/
def technicalBlock (ticker : String) (t : FinDict) : String :=
  "📈 TECHNICAL ANALYSIS for " ++ ticker ++ " (Retrieved from Yahoo Finance):\n"
    ++ String.intercalate "\n" (t.filterMap technicalLine)

/-- `market_parts`: per requested ticker, the fundamental block then the
technical block, each included only when its `blockCheck` guard passes. -/
def marketParts (s : FinancialAgentState) : List String :=
  s.ticker.foldl
    (fun acc ticker =>
      let f := dgetD s.fundamental_data ticker []
      let t := dgetD s.technical_data ticker []
      let acc2 := if blockCheck f then acc ++ [fundamentalBlock ticker f] else acc
      if blockCheck t then acc2 ++ [technicalBlock ticker t] else acc2)
    []

/-- `market_context`: the joined market blocks. -/
def buildMarketContext (s : FinancialAgentState) : String :=
  String.intercalate "\n\n" (marketParts s)

/-- One news snippet of the news context. -/
def newsSnippet (d : Doc) : String :=
  "[" ++ dgetD d.metadata "source" "News" ++ " - " ++ dgetD d.metadata "date" "Recent"
    ++ "]: " ++ d.page_content.take 500 ++ "..."

/-- `news_context`. -/
def buildNewsContext (s : FinancialAgentState) : String :=
  if s.news_articles.isEmpty then ""
  else "📰 RECENT NEWS:\n" ++ String.intercalate "\n\n" (s.news_articles.map newsSnippet)

/-- `format_doc_source`: readable source description of one passage. -/
def format_doc_source (metadata : List (String × String)) : String :=
  let ticker := dgetD metadata "company_ticker" "Unknown"
  let company := dgetD metadata "company_name" ticker
  let form := dgetD metadata "form_type" "Filing"
  let period := dgetD metadata "period_end" "N/A"
  let sect := dgetD metadata "section_title" "Document"
  company ++ " (" ++ ticker ++ ") " ++ form ++ " (Period: " ++ period ++ ") - " ++ sect

/-- `doc_context`. -/
def buildDocContext (s : FinancialAgentState) : String :=
  String.intercalate "\n\n"
    (s.retrieved_docs.map fun d =>
      "[" ++ format_doc_source d.metadata ++ "]: " ++ d.page_content.take 800 ++ "...")

/-- The synthesizer history block: all turns but the last, role-prefixed,
empty for a single-turn conversation. -/
def buildHistoryStr (s : FinancialAgentState) : String :=
  if 1 < s.messages.length then historyStrOf s.messages.dropLast else ""

/-- The prompt inputs of the generation call of `generate_final_answer`,
with `history_str or "None"` and the stripping of the market and news
contexts. -/
def mkGenInput (s : FinancialAgentState) : GenInput :=
  let history := buildHistoryStr s
  { history := if history = "" then "None" else history
    question := s.query
    doc_context := buildDocContext s
    market_context := pyStrip (buildMarketContext s)
    news_context := pyStrip (buildNewsContext s) }

/-- The `answer` value of node `generate_answer`: the generation result, or
the literal error string built in the `except` branch. -/
def answerResult (o : Oracle) (s : FinancialAgentState) : String :=
  match o.answer_llm (mkGenInput s) with
  | Except.ok a => a
  | Except.error e => "An error occurred: " ++ e

/-- Node `generate_answer` (`generate_final_answer`). -/
def generate_final_answer (o : Oracle) (s : FinancialAgentState) : FinancialAgentState :=
  { s with answer := answerResult o s }

/-- The conditional-edge targets of the LangGraph workflow
(`app/agents/financial_agent_graph.py`). -/
inductive GraphNode
  | fetch_fundamental
  | fetch_technical
  | fetch_news
  | retrieve_docs
  | generate_answer
deriving DecidableEq

/-- `route_after_analysis`: priority order fundamental → technical → news →
secfiling → answer. -/
def route_after_analysis (s : FinancialAgentState) : GraphNode :=
  if s.needs_fundamental then GraphNode.fetch_fundamental
  else if s.needs_technical then GraphNode.fetch_technical
  else if s.needs_news then GraphNode.fetch_news
  else if s.needs_secfiling then GraphNode.retrieve_docs
  else GraphNode.generate_answer

/-- `route_after_fundamental`. -/
def route_after_fundamental (s : FinancialAgentState) : GraphNode :=
  if s.needs_technical then GraphNode.fetch_technical
  else if s.needs_news then GraphNode.fetch_news
  else if s.needs_secfiling then GraphNode.retrieve_docs
  else GraphNode.generate_answer

/-- `route_after_technical`. -/
def route_after_technical (s : FinancialAgentState) : GraphNode :=
  if s.needs_news then GraphNode.fetch_news
  else if s.needs_secfiling then GraphNode.retrieve_docs
  else GraphNode.generate_answer

/-- `route_after_news`. -/
def route_after_news (s : FinancialAgentState) : GraphNode :=
  if s.needs_secfiling then GraphNode.retrieve_docs
  else GraphNode.generate_answer

/-- Executes the conditional fetcher chain from a given node.  The fuel
argument only bounds the chain length (4 suffices: the edges strictly advance
in the priority order); `generate_answer` is terminal. -/
def execFrom (o : Oracle) : Nat → GraphNode → FinancialAgentState → FinancialAgentState
  | _, GraphNode.generate_answer, s => generate_final_answer o s
  | 0, _, s => s
  | fuel + 1, GraphNode.fetch_fundamental, s =>
    let s2 := fetch_fundamental_data o s
    execFrom o fuel (route_after_fundamental s2) s2
  | fuel + 1, GraphNode.fetch_technical, s =>
    let s2 := fetch_technical_data o s
    execFrom o fuel (route_after_technical s2) s2
  | fuel + 1, GraphNode.fetch_news, s =>
    let s2 := fetch_news o s
    execFrom o fuel (route_after_news s2) s2
  | fuel + 1, GraphNode.retrieve_docs, s =>
    let s2 := retrieve_documents o s
    execFrom o fuel GraphNode.generate_answer s2

/-- One full invocation of the compiled workflow: `resolve_query`, `analyze`,
the conditional fetcher chain, `generate_answer`. -/
def runPipeline (o : Oracle) (s : FinancialAgentState) : FinancialAgentState :=
  let s1 := resolve_query_with_history o s
  let s2 := analyze_user_query o s1
  execFrom o 4 (route_after_analysis s2) s2

/-- An inert collaborator set: both LLM calls fail (so the analysis falls
back to the regex path), data lookups return empty, searches return nothing,
generation succeeds with a fixed text. -/
def trivialOracle : Oracle :=
  { rewrite_query := fun _ _ => Except.error "down"
    analyze_llm := fun _ => Except.error "down"
    get_fundamental_data := fun _ => []
    get_technical_data := fun _ => []
    generate_news_queries := fun _ _ => []
    news_search := fun _ => Except.ok []
    doc_search := fun _ _ => Except.ok []
    answer_llm := fun _ => Except.ok "fine" }

/-- A collaborator set whose rewriting call succeeds with a fixed text. -/
def rewriteOracle : Oracle :=
  { trivialOracle with rewrite_query := fun _ _ => Except.ok "rewritten" }

/-- A collaborator set whose generation call always raises. -/
def failingAnswerOracle : Oracle :=
  { trivialOracle with answer_llm := fun _ => Except.error "boom" }

/-- A collaborator set whose analysis LLM returns a duplicated raw ticker
array. -/
def dupTickerLLMOracle : Oracle :=
  { trivialOracle with
    analyze_llm := fun _ =>
      Except.ok
        { is_financial := true
          ticker := RawTicker.list [RawVal.str "AAPL", RawVal.str " aapl "] } }

/-- A query whose regex fallback produces a duplicated ticker list. -/
def dupQueryState : FinancialAgentState := { query := "AAPL and AAPL" }

/-- A single-turn conversation whose only turn is assistant-role. -/
def assistantOnlyState : FinancialAgentState :=
  { messages := [{ role := "assistant", content := "Hello" }] }

/-- A single-turn conversation with one user turn. -/
def singleUserState : FinancialAgentState :=
  { messages := [{ role := "user", content := "What is AAPL price?" }] }

/-- A news document carrying the given source URL. -/
def newsDoc (u : String) : Doc :=
  { page_content := "story " ++ u
    metadata := [("source", u), ("title", "t"), ("date", "d")] }

/-- A news document with no source URL in its metadata. -/
def noUrlDoc : Doc := { page_content := "no url", metadata := [("title", "t")] }

/-- A state asking for news on a financial query without tickers. -/
def newsState : FinancialAgentState := { is_financial := true, needs_news := true }

/-- Three retrieved articles with one duplicated URL. -/
def gatheredNews3 : List Doc := [newsDoc "u1", newsDoc "u2", newsDoc "u1"]

/-- Collaborators returning `gatheredNews3` for one generated query. -/
def newsOracle3 : Oracle :=
  { trivialOracle with
    generate_news_queries := fun _ _ => ["q1"]
    news_search := fun _ => Except.ok gatheredNews3 }

/-- Six retrieved articles: five share one URL and one has none. -/
def gatheredNews10 : List Doc :=
  [newsDoc "u1", newsDoc "u1", noUrlDoc, newsDoc "u1", newsDoc "u1", newsDoc "u1"]

/-- Collaborators returning `gatheredNews10` for one generated query. -/
def newsOracle10 : Oracle :=
  { trivialOracle with
    generate_news_queries := fun _ _ => ["q"]
    news_search := fun _ => Except.ok gatheredNews10 }

/-- Collaborators whose analysis asks only for news, and whose news search
returns one article. -/
def newsOnlyAnalysisOracle : Oracle :=
  { trivialOracle with
    analyze_llm := fun _ =>
      Except.ok { is_financial := true, ticker := RawTicker.list [], needs_news := true }
    generate_news_queries := fun _ _ => ["q1"]
    news_search := fun _ => Except.ok [newsDoc "u1"] }

/-- A fresh single-turn invocation state, all data fields at their
defaults. -/
def freshState : FinancialAgentState :=
  { messages := [{ role := "user", content := "Tesla news" }] }

/-- A matching SEC passage for the requested ticker. -/
def aaplDoc : Doc :=
  { page_content := "MD&A text"
    metadata := [("company_ticker", "AAPL"), ("section_title", "Item 7")] }

/-- Collaborators whose similarity search always returns `aaplDoc`. -/
def docOracle : Oracle :=
  { trivialOracle with doc_search := fun _ _ => Except.ok [aaplDoc] }

/-- A document-fetch state requesting SEC filings for AAPL. -/
def docState : FinancialAgentState :=
  { query := "AAPL annual report", is_financial := true, needs_secfiling := true,
    ticker := ["AAPL"] }

/-- A state whose technical data holds the error marker produced by
`get_technical_data` for a symbol with a short price history. -/
def errorTechState : FinancialAgentState :=
  { ticker := ["XYZ"]
    technical_data := [("XYZ", [("error", PyVal.str "Insufficient price history")])] }

/-! ### Helper lemmas -/

theorem charToNat_ofNat {n : Nat} (h : n < 55296) : (Char.ofNat n).toNat = n := by
  have hv : n < 55296 ∨ 57343 < n ∧ n < 1114112 := Or.inl h
  simp [Char.ofNat, hv, Char.ofNatAux, Char.toNat, UInt32.toNat]

theorem pyUpperChar_of_upper {c : Char} (h : isUpperAlpha c = true) : pyUpperChar c = c := by
  simp [isUpperAlpha] at h
  unfold pyUpperChar
  split
  · omega
  · rfl

theorem pyUpperChar_idem (c : Char) : pyUpperChar (pyUpperChar c) = pyUpperChar c := by
  by_cases h : 97 ≤ c.toNat ∧ c.toNat ≤ 122
  · have h32 : c.toNat - 32 < 55296 := by omega
    unfold pyUpperChar
    simp [h, charToNat_ofNat h32]
    omega
  · unfold pyUpperChar
    simp [h]

theorem pyUpper_idem (s : String) : pyUpper (pyUpper s) = pyUpper s := by
  simp only [pyUpper, List.map_map]
  congr 1
  exact List.map_congr_left fun c _ => pyUpperChar_idem c

theorem pyUpper_fix_of_upperAlpha {t : String} (h : t.data.all isUpperAlpha = true) :
    pyUpper t = t := by
  rcases t with ⟨l⟩
  simp only [pyUpper]
  congr 1
  simp only [List.all_eq_true] at h
  exact (List.map_congr_left fun c hc => pyUpperChar_of_upper (h c hc)).trans (List.map_id l)

theorem mem_regexTokens_all_upper {t s : String} (h : t ∈ regexTokens s) :
    t.data.all isUpperAlpha = true := by
  simp only [regexTokens, List.mem_filterMap] at h
  obtain ⟨r, _, hr⟩ := h
  split at hr
  · rename_i hcond
    cases hr
    exact hcond.1
  · cases hr

theorem dedupAux_sublist (l : List Doc) (seen : List String) :
    (dedupBySourceAux l seen).Sublist l := by
  induction l generalizing seen with
  | nil => simp [dedupBySourceAux]
  | cons d rest ih =>
    unfold dedupBySourceAux
    split
    · rename_i src hsrc
      split
      · exact List.Sublist.cons₂ d (ih _)
      · exact List.Sublist.cons d (ih _)
    · exact List.Sublist.cons d (ih _)

theorem dedupAux_sources {l : List Doc} {seen : List String} {d : Doc}
    (h : d ∈ dedupBySourceAux l seen) :
    ∃ u, dget d.metadata "source" = some u ∧ u ≠ "" ∧ u ∉ seen ∧
      l.find? (fun x => dget x.metadata "source" == some u) = some d := by
  induction l generalizing seen with
  | nil => simp [dedupBySourceAux] at h
  | cons d0 rest ih =>
    unfold dedupBySourceAux at h
    cases hsrc : dget d0.metadata "source" with
    | none =>
      rw [hsrc] at h
      obtain ⟨u, hu, hne, hnotin, hfind⟩ := ih h
      refine ⟨u, hu, hne, hnotin, ?_⟩
      rw [List.find?_cons_of_neg, hfind]
      simp [hsrc]
    | some src =>
      rw [hsrc] at h
      simp only at h
      by_cases hkeep : src ≠ "" ∧ src ∉ seen
      · rw [if_pos hkeep] at h
        rcases List.mem_cons.mp h with rfl | htail
        · exact ⟨src, hsrc, hkeep.1, hkeep.2, by
            rw [List.find?_cons_of_pos]
            simp [hsrc]⟩
        · obtain ⟨u, hu, hne, hnotin, hfind⟩ := ih htail
          refine ⟨u, hu, hne, fun hmem => hnotin (List.mem_cons_of_mem _ hmem), ?_⟩
          rw [List.find?_cons_of_neg, hfind]
          simp [hsrc]
          intro hequ
          subst hequ
          exact hnotin (List.mem_cons_self _ _)
      · rw [if_neg hkeep] at h
        obtain ⟨u, hu, hne, hnotin, hfind⟩ := ih h
        refine ⟨u, hu, hne, hnotin, ?_⟩
        rw [List.find?_cons_of_neg, hfind]
        simp [hsrc]
        intro hequ
        subst hequ
        rcases not_and_or.mp hkeep with h1 | h2
        · exact hne (not_not.mp h1)
        · exact hnotin (not_not.mp h2)

theorem dedupAux_not_seen {l : List Doc} {seen : List String} {d : Doc}
    (h : d ∈ dedupBySourceAux l seen) {u : String}
    (hu : dget d.metadata "source" = some u) : u ∉ seen := by
  obtain ⟨u2, hu2, _, hnotin, _⟩ := dedupAux_sources h
  rw [hu] at hu2
  cases hu2
  exact hnotin

theorem dedupAux_pairwise (l : List Doc) (seen : List String) :
    (dedupBySourceAux l seen).Pairwise
      (fun a b => dget a.metadata "source" ≠ dget b.metadata "source") := by
  induction l generalizing seen with
  | nil => simp [dedupBySourceAux]
  | cons d0 rest ih =>
    unfold dedupBySourceAux
    cases hsrc : dget d0.metadata "source" with
    | none => exact ih seen
    | some src =>
      simp only
      split
      · refine List.Pairwise.cons ?_ (ih _)
        intro b hb hcontra
        have := dedupAux_not_seen hb (u := src) (by rw [← hcontra, hsrc])
        exact this (List.mem_cons_self _ _)
      · exact ih seen

theorem dedupAux_ne_nil {l : List Doc} {seen : List String} {d : Doc} {u : String}
    (hd : d ∈ l) (hu : dget d.metadata "source" = some u) (hne : u ≠ "")
    (hns : u ∉ seen) : dedupBySourceAux l seen ≠ [] := by
  induction l generalizing seen with
  | nil => simp at hd
  | cons d0 rest ih =>
    unfold dedupBySourceAux
    cases hsrc : dget d0.metadata "source" with
    | none =>
      rcases List.mem_cons.mp hd with rfl | htail
      · rw [hu] at hsrc; cases hsrc
      · exact ih htail hns
    | some src =>
      simp only
      split
      · simp
      · rename_i hkeep
        rcases List.mem_cons.mp hd with rfl | htail
        · rw [hu] at hsrc
          cases hsrc
          rcases not_and_or.mp hkeep with h1 | h2
          · exact absurd (not_not.mp h1) hne
          · exact absurd (not_not.mp h2) hns
        · exact ih htail hns

theorem mergeUniqueAux_mem {l : List (Nat × Doc)} {seen : List DocKey} {x : Doc}
    (h : x ∈ mergeUniqueAux l seen) : x ∈ l.map Prod.snd := by
  induction l generalizing seen with
  | nil => simp [mergeUniqueAux] at h
  | cons p rest ih =>
    obtain ⟨i, d⟩ := p
    unfold mergeUniqueAux at h
    dsimp only at h
    split at h
    · exact List.mem_cons_of_mem _ (ih h)
    · rcases List.mem_cons.mp h with rfl | htail
      · exact List.mem_cons_self _ _
      · exact List.mem_cons_of_mem _ (ih htail)

theorem mergeUniqueAux_ne_nil {l : List (Nat × Doc)} (h : l ≠ []) :
    mergeUniqueAux l [] ≠ [] := by
  match l with
  | [] => exact absurd rfl h
  | (i, d) :: rest =>
    unfold mergeUniqueAux
    simp

theorem mergeDocs_mem {a b : List Doc} {x : Doc} (h : x ∈ mergeDocs a b) : x ∈ a ++ b := by
  unfold mergeDocs at h
  have h2 := mergeUniqueAux_mem (List.mem_of_mem_take h)
  rwa [List.enum_map_snd] at h2

theorem mergeDocs_ne_nil {a b : List Doc} (h : a ≠ []) : mergeDocs a b ≠ [] := by
  unfold mergeDocs
  have henum : (a ++ b).enum ≠ [] := by
    simp [List.enum_eq_nil]
    rcases a with _ | ⟨x, xs⟩
    · exact absurd rfl h
    · simp
  have hm := mergeUniqueAux_ne_nil henum
  intro hcontra
  rcases List.take_eq_nil_iff.mp hcontra with h8 | hnil
  · omega
  · exact hm hnil

theorem rerankDocs_mem (l : List Doc) (x : Doc) : x ∈ rerankDocs l ↔ x ∈ l := by
  unfold rerankDocs
  exact (List.mergeSort_perm l _).mem_iff

theorem rerankDocs_ne_nil {l : List Doc} (h : l ≠ []) : rerankDocs l ≠ [] := by
  unfold rerankDocs
  intro hcontra
  have := (List.mergeSort_perm l (fun a b =>
    decide (sectionScore (dgetD b.metadata "section_title" "")
      ≤ sectionScore (dgetD a.metadata "section_title" "")))).length_eq
  rw [hcontra] at this
  exact h (List.length_eq_zero.mp this.symm)

theorem execFrom_chain (o : Oracle) (s2 : FinancialAgentState) :
    execFrom o 4 (route_after_analysis s2) s2 =
      (let s3 := if s2.needs_fundamental then fetch_fundamental_data o s2 else s2
       let s4 := if s3.needs_technical then fetch_technical_data o s3 else s3
       let s5 := if s4.needs_news then fetch_news o s4 else s4
       let s6 := if s5.needs_secfiling then retrieve_documents o s5 else s5
       generate_final_answer o s6) := by
  by_cases hF : s2.needs_fundamental <;>
    by_cases hT : s2.needs_technical <;>
      by_cases hN : s2.needs_news <;>
        by_cases hS : s2.needs_secfiling <;>
          simp [execFrom, route_after_analysis, route_after_fundamental,
            route_after_technical, route_after_news, fetch_fundamental_data,
            fetch_technical_data, fetch_news, retrieve_documents, hF, hT, hN, hS]

theorem runPipeline_eq_chain (o : Oracle) (s : FinancialAgentState) :
    runPipeline o s =
      (let s2 := analyze_user_query o (resolve_query_with_history o s)
       let s3 := if s2.needs_fundamental then fetch_fundamental_data o s2 else s2
       let s4 := if s3.needs_technical then fetch_technical_data o s3 else s3
       let s5 := if s4.needs_news then fetch_news o s4 else s4
       let s6 := if s5.needs_secfiling then retrieve_documents o s5 else s5
       generate_final_answer o s6) := by
  unfold runPipeline
  exact execFrom_chain o _

theorem resolve_preserves_data (o : Oracle) (s : FinancialAgentState) :
    (resolve_query_with_history o s).fundamental_data = s.fundamental_data ∧
    (resolve_query_with_history o s).technical_data = s.technical_data ∧
    (resolve_query_with_history o s).news_articles = s.news_articles ∧
    (resolve_query_with_history o s).retrieved_docs = s.retrieved_docs := by
  unfold resolve_query_with_history
  repeat' split
  all_goals exact ⟨rfl, rfl, rfl, rfl⟩

theorem analyze_preserves_data (o : Oracle) (s : FinancialAgentState) :
    (analyze_user_query o s).fundamental_data = s.fundamental_data ∧
    (analyze_user_query o s).technical_data = s.technical_data ∧
    (analyze_user_query o s).news_articles = s.news_articles ∧
    (analyze_user_query o s).retrieved_docs = s.retrieved_docs :=
  ⟨rfl, rfl, rfl, rfl⟩

theorem runPipeline_flags (o : Oracle) (s0 : FinancialAgentState) :
    (runPipeline o s0).needs_fundamental
        = (analyze_user_query o (resolve_query_with_history o s0)).needs_fundamental ∧
    (runPipeline o s0).needs_technical
        = (analyze_user_query o (resolve_query_with_history o s0)).needs_technical ∧
    (runPipeline o s0).needs_news
        = (analyze_user_query o (resolve_query_with_history o s0)).needs_news ∧
    (runPipeline o s0).needs_secfiling
        = (analyze_user_query o (resolve_query_with_history o s0)).needs_secfiling ∧
    (runPipeline o s0).is_financial
        = (analyze_user_query o (resolve_query_with_history o s0)).is_financial ∧
    (runPipeline o s0).ticker
        = (analyze_user_query o (resolve_query_with_history o s0)).ticker := by
  rw [runPipeline_eq_chain]
  by_cases hF : (analyze_user_query o (resolve_query_with_history o s0)).needs_fundamental <;>
    by_cases hT : (analyze_user_query o (resolve_query_with_history o s0)).needs_technical <;>
      by_cases hN : (analyze_user_query o (resolve_query_with_history o s0)).needs_news <;>
        by_cases hS : (analyze_user_query o (resolve_query_with_history o s0)).needs_secfiling <;>
          simp [fetch_fundamental_data, fetch_technical_data, fetch_news,
            retrieve_documents, generate_final_answer, hF, hT, hN, hS]

theorem runPipeline_fundamental_eq (o : Oracle) (s0 : FinancialAgentState) :
    (runPipeline o s0).fundamental_data =
      (if (analyze_user_query o (resolve_query_with_history o s0)).needs_fundamental then
        fundamentalResult o (analyze_user_query o (resolve_query_with_history o s0))
      else (analyze_user_query o (resolve_query_with_history o s0)).fundamental_data) := by
  rw [runPipeline_eq_chain]
  by_cases hF : (analyze_user_query o (resolve_query_with_history o s0)).needs_fundamental <;>
    by_cases hT : (analyze_user_query o (resolve_query_with_history o s0)).needs_technical <;>
      by_cases hN : (analyze_user_query o (resolve_query_with_history o s0)).needs_news <;>
        by_cases hS : (analyze_user_query o (resolve_query_with_history o s0)).needs_secfiling <;>
          simp [fetch_fundamental_data, fetch_technical_data, fetch_news,
            retrieve_documents, generate_final_answer, hF, hT, hN, hS]

theorem runPipeline_technical_eq (o : Oracle) (s0 : FinancialAgentState) :
    (runPipeline o s0).technical_data =
      (if (analyze_user_query o (resolve_query_with_history o s0)).needs_technical then
        technicalResult o (analyze_user_query o (resolve_query_with_history o s0))
      else (analyze_user_query o (resolve_query_with_history o s0)).technical_data) := by
  rw [runPipeline_eq_chain]
  by_cases hF : (analyze_user_query o (resolve_query_with_history o s0)).needs_fundamental <;>
    by_cases hT : (analyze_user_query o (resolve_query_with_history o s0)).needs_technical <;>
      by_cases hN : (analyze_user_query o (resolve_query_with_history o s0)).needs_news <;>
        by_cases hS : (analyze_user_query o (resolve_query_with_history o s0)).needs_secfiling <;>
          simp [fetch_fundamental_data, fetch_technical_data, fetch_news,
            retrieve_documents, generate_final_answer, hF, hT, hN, hS,
            technicalResult]

theorem runPipeline_news_eq (o : Oracle) (s0 : FinancialAgentState) :
    (runPipeline o s0).news_articles =
      (if (analyze_user_query o (resolve_query_with_history o s0)).needs_news then
        newsResult o (analyze_user_query o (resolve_query_with_history o s0))
      else (analyze_user_query o (resolve_query_with_history o s0)).news_articles) := by
  rw [runPipeline_eq_chain]
  by_cases hF : (analyze_user_query o (resolve_query_with_history o s0)).needs_fundamental <;>
    by_cases hT : (analyze_user_query o (resolve_query_with_history o s0)).needs_technical <;>
      by_cases hN : (analyze_user_query o (resolve_query_with_history o s0)).needs_news <;>
        by_cases hS : (analyze_user_query o (resolve_query_with_history o s0)).needs_secfiling <;>
          simp [fetch_fundamental_data, fetch_technical_data, fetch_news,
            retrieve_documents, generate_final_answer, hF, hT, hN, hS,
            newsResult, gatherNews, runNewsQueries]

theorem runPipeline_docs_eq (o : Oracle) (s0 : FinancialAgentState) :
    (runPipeline o s0).retrieved_docs =
      (if (analyze_user_query o (resolve_query_with_history o s0)).needs_secfiling then
        docsResult o (analyze_user_query o (resolve_query_with_history o s0))
      else (analyze_user_query o (resolve_query_with_history o s0)).retrieved_docs) := by
  rw [runPipeline_eq_chain]
  by_cases hF : (analyze_user_query o (resolve_query_with_history o s0)).needs_fundamental <;>
    by_cases hT : (analyze_user_query o (resolve_query_with_history o s0)).needs_technical <;>
      by_cases hN : (analyze_user_query o (resolve_query_with_history o s0)).needs_news <;>
        by_cases hS : (analyze_user_query o (resolve_query_with_history o s0)).needs_secfiling <;>
          simp [fetch_fundamental_data, fetch_technical_data, fetch_news,
            retrieve_documents, generate_final_answer, hF, hT, hN, hS,
            docsResult, retrieveCore, docFilter, enhancedQuery, tickersUpper]

/-! ### Claim theorems -/

/-- C6: each of the four evidence fetchers returns its empty default output
whenever `is_financial` is false or its own need-flag is false, and the
ticker-scoped fetchers (fundamental, technical) additionally return their
empty default whenever the ticker list is empty. -/
theorem c6_fetcher_short_circuit (o : Oracle) (s : FinancialAgentState) :
    (s.is_financial = false ∨ s.needs_fundamental = false ∨ s.ticker = [] →
      (fetch_fundamental_data o s).fundamental_data = []) ∧
    (s.is_financial = false ∨ s.needs_technical = false ∨ s.ticker = [] →
      (fetch_technical_data o s).technical_data = []) ∧
    (s.is_financial = false ∨ s.needs_news = false →
      (fetch_news o s).news_articles = []) ∧
    (s.is_financial = false ∨ s.needs_secfiling = false →
      (retrieve_documents o s).retrieved_docs = []) := by
  refine ⟨fun h => ?_, fun h => ?_, fun h => ?_, fun h => ?_⟩
  · rcases h with h | h | h <;> simp [fetch_fundamental_data, fundamentalResult, h]
  · rcases h with h | h | h <;> simp [fetch_technical_data, technicalResult, h]
  · rcases h with h | h <;> simp [fetch_news, newsResult, h]
  · rcases h with h | h <;> simp [retrieve_documents, docsResult, h]

/-- Witness for C6: on the default state every fetcher short-circuits. -/
theorem c6_fetcher_short_circuit_witness :
    ({} : FinancialAgentState).is_financial = false ∧
    (fetch_fundamental_data trivialOracle {}).fundamental_data = [] ∧
    (fetch_technical_data trivialOracle {}).technical_data = [] ∧
    (fetch_news trivialOracle {}).news_articles = [] ∧
    (retrieve_documents trivialOracle {}).retrieved_docs = [] :=
  ⟨rfl,
   (c6_fetcher_short_circuit trivialOracle {}).1 (Or.inl rfl),
   (c6_fetcher_short_circuit trivialOracle {}).2.1 (Or.inl rfl),
   (c6_fetcher_short_circuit trivialOracle {}).2.2.1 (Or.inl rfl),
   (c6_fetcher_short_circuit trivialOracle {}).2.2.2 (Or.inl rfl)⟩

/-- Counterexample to C9 as stated: a one-turn message list whose single
turn is assistant-role resolves to the empty query, not to that turn's
text. -/
theorem c9_counterexample :
    assistantOnlyState.messages.length = 1 ∧
    assistantOnlyState.messages = [{ role := "assistant", content := "Hello" }] ∧
    (resolve_query_with_history trivialOracle assistantOnlyState).query = "" ∧
    "Hello" ≠ "" := by
  refine ⟨rfl, rfl, by decide, by decide⟩

/-- C9 amended: for every one-turn message list whose turn is user-role, the
resolver returns that turn's text verbatim, and the result does not depend on
the rewriting collaborator (no rewrite call is made). -/
theorem c9_single_turn (o o2 : Oracle) (s : FinancialAgentState) (turn : Msg)
    (hmsgs : s.messages = [turn]) (hrole : turn.role = "user") :
    (resolve_query_with_history o s).query = turn.content ∧
    resolve_query_with_history o s = resolve_query_with_history o2 s := by
  unfold resolve_query_with_history
  rw [hmsgs]
  simp [latestUserMsg, hrole]

/-- Witness for C9's amended statement. -/
theorem c9_single_turn_witness :
    singleUserState.messages = [{ role := "user", content := "What is AAPL price?" }] ∧
    (resolve_query_with_history trivialOracle singleUserState).query
      = "What is AAPL price?" ∧
    resolve_query_with_history trivialOracle singleUserState
      = resolve_query_with_history rewriteOracle singleUserState :=
  ⟨rfl,
   (c9_single_turn trivialOracle rewriteOracle singleUserState _ rfl rfl).1,
   (c9_single_turn trivialOracle rewriteOracle singleUserState _ rfl rfl).2⟩

/-- Counterexample to C7 as stated: the single-letter uppercase token `X`
survives the stopword exclusion yet the fallback is not financial (the code
additionally drops candidates shorter than 2 letters); and the lowercase
query `tesla` has no uppercase token yet is classified financial (the scan
runs on the uppercased query). -/
theorem c7_counterexample :
    regexTokens "X" = ["X"] ∧ "X" ∉ commonWords ∧
    (analyzeRequestFallback "X").is_financial = false ∧
    regexTokens "tesla" = [] ∧
    (analyzeRequestFallback "tesla").is_financial = true := by decide

/-- C7 amended: the fallback scans 1-5 letter tokens of the uppercased
query; `is_financial` holds iff some such token survives the stopword set
and has at least 2 letters; `needs_fundamental` and `needs_technical` are
always false; `needs_news` iff "news" or "headline" occurs in the lowercased
query; `needs_secfiling` iff "sec" or "10-" occurs. -/
theorem c7_fallback (q : String) :
    ((analyzeRequestFallback q).is_financial = true ↔
      ∃ t ∈ regexTokens (pyUpper q), t ∉ commonWords ∧ 2 ≤ t.length) ∧
    (analyzeRequestFallback q).needs_fundamental = false ∧
    (analyzeRequestFallback q).needs_technical = false ∧
    ((analyzeRequestFallback q).needs_news = true ↔
      pySubstr "news" (pyLower q) = true ∨ pySubstr "headline" (pyLower q) = true) ∧
    ((analyzeRequestFallback q).needs_secfiling = true ↔
      pySubstr "sec" (pyLower q) = true ∨ pySubstr "10-" (pyLower q) = true) := by
  refine ⟨?_, rfl, rfl, ?_, ?_⟩
  · simp only [analyzeRequestFallback, decide_eq_true_eq]
    constructor
    · intro h
      obtain ⟨t, ht⟩ := List.exists_mem_of_length_pos h
      obtain ⟨hmem, hp⟩ := List.mem_filter.mp ht
      simp only [Bool.and_eq_true, Bool.not_eq_true', decide_eq_true_eq] at hp
      refine ⟨t, hmem, ?_, hp.2⟩
      intro hc
      have h1 := hp.1
      have h2 : commonWords.elem t = true := List.elem_iff.mpr hc
      rw [show (commonWords.contains t) = commonWords.elem t from rfl, h2] at h1
      cases h1
    · rintro ⟨t, hmem, hnc, hlen⟩
      apply List.length_pos_of_mem (a := t)
      apply List.mem_filter.mpr
      refine ⟨hmem, ?_⟩
      have h2 : commonWords.contains t = false := by
        cases h : commonWords.elem t
        · exact h
        · exact absurd (List.elem_iff.mp h) hnc
      simp [h2, hlen, hnc]
  · simp [analyzeRequestFallback]
  · simp [analyzeRequestFallback]

/-- Counterexample to C8 as stated: neither classifier path deduplicates the
ticker list — the structured-extraction path keeps a duplicated raw array,
and the regex fallback keeps repeated query tokens. -/
theorem c8_counterexample :
    (analyze_user_query dupTickerLLMOracle { query := "aapl?" }).ticker
      = ["AAPL", "AAPL"] ∧
    ¬ (analyze_user_query dupTickerLLMOracle { query := "aapl?" }).ticker.Nodup ∧
    (analyze_user_query trivialOracle dupQueryState).ticker = ["AAPL", "AAPL"] ∧
    ¬ (analyze_user_query trivialOracle dupQueryState).ticker.Nodup := by decide

/-- C8 amended: in every state produced by the classifier, on both paths,
every ticker entry is uppercase (fixed by `upper`); the list is not
deduplicated. -/
theorem c8_ticker_uppercase (o : Oracle) (s : FinancialAgentState) (t : String)
    (ht : t ∈ (analyze_user_query o s).ticker) : pyUpper t = t := by
  have ht2 : t ∈ (analyze_request o s.query).ticker := ht
  unfold analyze_request at ht2
  cases ha : o.analyze_llm s.query with
  | ok r =>
    rw [ha] at ht2
    simp only at ht2
    cases hrt : r.ticker with
    | none => rw [hrt] at ht2; simp [cleanTickerList] at ht2
    | str s1 =>
      rw [hrt] at ht2
      simp only [cleanTickerList] at ht2
      split at ht2
      · rw [List.mem_singleton] at ht2
        subst ht2
        exact pyUpper_idem _
      · simp at ht2
    | list xs =>
      rw [hrt] at ht2
      simp only [cleanTickerList, List.mem_filterMap] at ht2
      obtain ⟨x, _, hxe⟩ := ht2
      cases x with
      | str t0 =>
        simp only at hxe
        split at hxe
        · cases hxe
          exact pyUpper_idem _
        · cases hxe
      | nonstr => cases hxe
    | other => rw [hrt] at ht2; simp [cleanTickerList] at ht2
  | error e =>
    rw [ha] at ht2
    simp only [analyzeRequestFallback] at ht2
    have hmem := (List.mem_filter.mp ht2).1
    exact pyUpper_fix_of_upperAlpha (mem_regexTokens_all_upper hmem)

/-- Witness for C8's amended statement. -/
theorem c8_ticker_uppercase_witness :
    "AAPL" ∈ (analyze_user_query trivialOracle dupQueryState).ticker ∧
    pyUpper "AAPL" = "AAPL" :=
  ⟨by decide, c8_ticker_uppercase trivialOracle dupQueryState "AAPL" (by decide)⟩

/-- C2: when the generation collaborator fails, `generate_final_answer`
returns the literal error string as the answer instead of raising, and the
whole pipeline run still terminates with that answer. -/
theorem c2_degraded_answer (o : Oracle) (s : FinancialAgentState) (e : String)
    (hfail : ∀ inp, o.answer_llm inp = Except.error e) :
    (generate_final_answer o s).answer = "An error occurred: " ++ e ∧
    (runPipeline o s).answer = "An error occurred: " ++ e := by
  constructor
  · simp [generate_final_answer, answerResult, hfail]
  · rw [runPipeline_eq_chain]
    simp [generate_final_answer, answerResult, hfail]

/-- Witness for C2. -/
theorem c2_degraded_answer_witness :
    (∀ inp, failingAnswerOracle.answer_llm inp = Except.error "boom") ∧
    (runPipeline failingAnswerOracle freshState).answer = "An error occurred: boom" :=
  ⟨fun _ => rfl,
   (c2_degraded_answer failingAnswerOracle freshState "boom" (fun _ => rfl)).2⟩

/-- C5 (code bug): the error-marker guard
`"error" not in str(f_data.get("error", ""))` passes for the marker
`{"error": "Insufficient price history"}` produced by `get_technical_data`,
so the synthesizer renders a technical block exposing the error text in the
market context instead of omitting it. -/
theorem c5_error_marker_leaks :
    blockCheck [("error", PyVal.str "Insufficient price history")] = true ∧
    marketParts errorTechState =
      ["📈 TECHNICAL ANALYSIS for XYZ (Retrieved from Yahoo Finance):\n• Error: Insufficient price history"] ∧
    pySubstr "Insufficient price history" (buildMarketContext errorTechState) = true := by
  decide

theorem narrowByTicker_ne_nil {tu : List String} {docs : List Doc} (h : docs ≠ []) :
    narrowByTicker tu docs ≠ [] := by
  unfold narrowByTicker
  dsimp only
  split
  · rename_i hf
    simp only [Bool.not_eq_true'] at hf
    intro hc
    rw [hc] at hf
    simp at hf
  · exact h

theorem narrowByTicker_all {tu : List String} {docs : List Doc}
    (hm : ∃ d ∈ docs, tickerMatches tu d = true) :
    ∀ d ∈ narrowByTicker tu docs, tickerMatches tu d = true := by
  intro d hd
  unfold narrowByTicker at hd
  dsimp only at hd
  split at hd
  · exact (List.mem_filter.mp hd).2
  · rename_i hf
    obtain ⟨d0, hd0, hmatch⟩ := hm
    exfalso
    have hmem : d0 ∈ docs.filter (tickerMatches tu) := List.mem_filter.mpr ⟨hd0, hmatch⟩
    have hf2 : (docs.filter (tickerMatches tu)).isEmpty = true := by
      revert hf
      cases (docs.filter (tickerMatches tu)).isEmpty <;> simp
    rw [List.isEmpty_iff.mp hf2] at hmem
    simp at hmem

theorem narrowByTicker_subset {tu : List String} {docs : List Doc} {d : Doc}
    (hd : d ∈ narrowByTicker tu docs) : d ∈ docs := by
  unfold narrowByTicker at hd
  dsimp only at hd
  split at hd
  · exact (List.mem_filter.mp hd).1
  · exact hd

theorem narrowByYear_ne_nil {q : String} {docs : List Doc} (h : docs ≠ []) :
    narrowByYear q docs ≠ [] := by
  unfold narrowByYear
  split
  · dsimp only
    split
    · rename_i hf
      simp only [Bool.not_eq_true'] at hf
      intro hc
      rw [hc] at hf
      simp at hf
    · exact h
  · exact h

theorem narrowByYear_subset {q : String} {docs : List Doc} {d : Doc}
    (hd : d ∈ narrowByYear q docs) : d ∈ docs := by
  unfold narrowByYear at hd
  split at hd
  · dsimp only at hd
    split at hd
    · exact (List.mem_filter.mp hd).1
    · exact hd
  · exact hd

theorem retrieveCore_spec (o : Oracle) (s : FinancialAgentState)
    (htick : s.ticker ≠ [])
    (honest : ∀ q ds, o.doc_search (docFilter s) q = Except.ok ds →
      ∀ d ∈ ds, tickerMatches (tickersUpper s) d = true)
    {ds0 : List Doc} {d0 : Doc}
    (hok0 : o.doc_search (docFilter s) (enhancedQuery s) = Except.ok ds0)
    (hd0 : d0 ∈ ds0) (hm0 : tickerMatches (tickersUpper s) d0 = true) :
    ∀ ds, retrieveCore o s = Except.ok ds →
      (∀ d ∈ ds, tickerMatches (tickersUpper s) d = true) ∧ ds ≠ [] := by
  intro ds hds
  unfold retrieveCore at hds
  rw [hok0] at hds
  simp only at hds
  have hne0 : ds0 ≠ [] := List.ne_nil_of_mem hd0
  have hie : ds0.isEmpty = false := by
    cases h : ds0.isEmpty
    · rfl
    · exact absurd (List.isEmpty_iff.mp h) hne0
  have hts : s.ticker.isEmpty = false := by
    cases h : s.ticker.isEmpty
    · rfl
    · exact absurd (List.isEmpty_iff.mp h) htick
  rw [hie, hts] at hds
  simp only [Bool.not_false, if_true, if_false, Bool.false_eq_true] at hds
  have hall1 : ∀ d ∈ narrowByTicker (tickersUpper s) ds0,
      tickerMatches (tickersUpper s) d = true :=
    narrowByTicker_all ⟨d0, hd0, hm0⟩
  have hne1 : narrowByTicker (tickersUpper s) ds0 ≠ [] := narrowByTicker_ne_nil hne0
  have hall2 : ∀ d ∈ narrowByYear s.query (narrowByTicker (tickersUpper s) ds0),
      tickerMatches (tickersUpper s) d = true :=
    fun d hd => hall1 d (narrowByYear_subset hd)
  have hne2 : narrowByYear s.query (narrowByTicker (tickersUpper s) ds0) ≠ [] :=
    narrowByYear_ne_nil hne1
  have hall3 : ∀ d ∈ rerankDocs (narrowByYear s.query (narrowByTicker (tickersUpper s) ds0)),
      tickerMatches (tickersUpper s) d = true :=
    fun d hd => hall2 d ((rerankDocs_mem _ _).mp hd)
  have hne3 : rerankDocs (narrowByYear s.query (narrowByTicker (tickersUpper s) ds0)) ≠ [] :=
    rerankDocs_ne_nil hne2
  split at hds
  · -- refined branch
    split at hds
    · cases hds
    · rename_i more hmore
      split at hds
      · cases hds
        refine ⟨?_, mergeDocs_ne_nil hne3⟩
        intro d hd
        rcases List.mem_append.mp (mergeDocs_mem hd) with h1 | h2
        · exact hall3 d h1
        · exact honest _ _ hmore d ((rerankDocs_mem _ _).mp h2)
      · cases hds
        exact ⟨hall3, hne3⟩
  · cases hds
    exact ⟨hall3, hne3⟩

theorem retrieveCore_isOk (o : Oracle) (s : FinancialAgentState)
    (hok : ∀ q, ∃ ds, o.doc_search (docFilter s) q = Except.ok ds) :
    ∃ ds, retrieveCore o s = Except.ok ds := by
  unfold retrieveCore
  obtain ⟨ds0, h0⟩ := hok (enhancedQuery s)
  obtain ⟨more, hm⟩ := hok (refinedQuery s.query)
  rw [h0]
  simp only
  repeat' split
  all_goals
    first
      | exact ⟨_, rfl⟩
      | (rename_i heq
         rw [hm] at heq
         cases heq)

/-- C3: every news-fetch output has at most 5 articles with pairwise
distinct canonical source URLs; on a successful gather the output is an
order-preserving sublist of the gathered articles keeping, for each URL, its
first occurrence. -/
theorem c3_news_dedup (o : Oracle) (s : FinancialAgentState) :
    (fetch_news o s).news_articles.length ≤ 5 ∧
    (fetch_news o s).news_articles.Pairwise
      (fun a b => dget a.metadata "source" ≠ dget b.metadata "source") ∧
    (∀ ds, s.is_financial = true → s.needs_news = true →
      gatherNews o s = Except.ok ds →
      (fetch_news o s).news_articles.Sublist ds ∧
      ∀ d ∈ (fetch_news o s).news_articles,
        ds.find? (fun x => dget x.metadata "source" == dget d.metadata "source")
          = some d) := by
  refine ⟨?_, ?_, ?_⟩
  · show (newsResult o s).length ≤ 5
    unfold newsResult
    split
    · simp
    · split
      · simp
      · exact List.length_take_le _ _
  · show (newsResult o s).Pairwise _
    unfold newsResult
    split
    · simp
    · split
      · simp
      · exact List.Pairwise.sublist (List.take_sublist _ _) (dedupAux_pairwise _ _)
  · intro ds hfin hnews hg
    have hout : (fetch_news o s).news_articles = (dedupBySource ds).take 5 := by
      show newsResult o s = _
      unfold newsResult
      rw [hfin, hnews]
      simp only [Bool.not_true, Bool.or_self, Bool.false_eq_true, if_false]
      rw [hg]
    rw [hout]
    constructor
    · exact (List.take_sublist _ _).trans (dedupAux_sublist ds [])
    · intro d hd
      have hd2 : d ∈ dedupBySource ds := List.mem_of_mem_take hd
      obtain ⟨u, hu, hne, _, hfind⟩ := dedupAux_sources hd2
      rw [hu]
      exact hfind

/-- Witness for C3 on a concrete gather with one duplicated URL. -/
theorem c3_news_dedup_witness :
    gatherNews newsOracle3 newsState = Except.ok gatheredNews3 ∧
    (fetch_news newsOracle3 newsState).news_articles.length ≤ 5 ∧
    (fetch_news newsOracle3 newsState).news_articles.Sublist gatheredNews3 ∧
    (fetch_news newsOracle3 newsState).news_articles = [newsDoc "u1", newsDoc "u2"] :=
  ⟨rfl,
   (c3_news_dedup newsOracle3 newsState).1,
   ((c3_news_dedup newsOracle3 newsState).2.2 gatheredNews3 rfl rfl rfl).1,
   by decide⟩

/-- C10: every article kept by the news deduplication carries a present,
non-empty source URL; articles without one are silently excluded, so a
6-article retrieval can produce a 1-item output (fewer than 5). -/
theorem c10_news_url_filter (o : Oracle) (s : FinancialAgentState) (d : Doc)
    (hd : d ∈ (fetch_news o s).news_articles) :
    (∃ u, dget d.metadata "source" = some u ∧ u ≠ "") ∧
    gatherNews newsOracle10 newsState = Except.ok gatheredNews10 ∧
    gatheredNews10.length = 6 ∧
    dget noUrlDoc.metadata "source" = Option.none ∧
    noUrlDoc ∈ gatheredNews10 ∧
    (fetch_news newsOracle10 newsState).news_articles = [newsDoc "u1"] := by
  refine ⟨?_, rfl, rfl, rfl, by decide, by decide⟩
  have hd2 : d ∈ newsResult o s := hd
  unfold newsResult at hd2
  split at hd2
  · simp at hd2
  · split at hd2
    · simp at hd2
    · have hd3 := List.mem_of_mem_take hd2
      obtain ⟨u, hu, hne, _, _⟩ := dedupAux_sources hd3
      exact ⟨u, hu, hne⟩

/-- Witness for C10. -/
theorem c10_news_url_filter_witness :
    newsDoc "u1" ∈ (fetch_news newsOracle10 newsState).news_articles ∧
    ∃ u, dget (newsDoc "u1").metadata "source" = some u ∧ u ≠ "" :=
  ⟨by decide,
   (c10_news_url_filter newsOracle10 newsState (newsDoc "u1") (by decide)).1⟩

/-- C4: when the similarity-search collaborator honours the declared ticker
filter and the first retrieval yields at least one passage matching the
ticker narrowing, every passage of the final output (the refined re-query
merge included) matches the requested ticker set; the ticker narrowing never
reduces a non-empty result list to empty; and when every search succeeds the
final output is non-empty. -/
theorem c4_doc_ticker_filter (o : Oracle) (s : FinancialAgentState)
    (hfin : s.is_financial = true) (hsec : s.needs_secfiling = true)
    (htick : s.ticker ≠ [])
    (honest : ∀ q ds, o.doc_search (docFilter s) q = Except.ok ds →
      ∀ d ∈ ds, tickerMatches (tickersUpper s) d = true)
    (hfirst : ∃ ds0 d0, o.doc_search (docFilter s) (enhancedQuery s) = Except.ok ds0 ∧
      d0 ∈ ds0 ∧ tickerMatches (tickersUpper s) d0 = true) :
    (∀ d ∈ (retrieve_documents o s).retrieved_docs,
      tickerMatches (tickersUpper s) d = true) ∧
    (∀ docs : List Doc, docs ≠ [] → narrowByTicker (tickersUpper s) docs ≠ []) ∧
    ((∀ q, ∃ ds, o.doc_search (docFilter s) q = Except.ok ds) →
      (retrieve_documents o s).retrieved_docs ≠ []) := by
  obtain ⟨ds0, d0, hok0, hd0, hm0⟩ := hfirst
  have hdr : (retrieve_documents o s).retrieved_docs = docsResult o s := rfl
  refine ⟨?_, fun docs h => narrowByTicker_ne_nil h, ?_⟩
  · intro d hd
    rw [hdr] at hd
    unfold docsResult at hd
    rw [hfin, hsec] at hd
    simp only [Bool.not_true, Bool.or_self, Bool.false_eq_true, if_false] at hd
    cases hrc : retrieveCore o s with
    | error e => rw [hrc] at hd; simp at hd
    | ok ds =>
      rw [hrc] at hd
      simp only at hd
      exact ((retrieveCore_spec o s htick honest hok0 hd0 hm0) ds hrc).1 d hd
  · intro hok
    rw [hdr]
    unfold docsResult
    rw [hfin, hsec]
    simp only [Bool.not_true, Bool.or_self, Bool.false_eq_true, if_false]
    obtain ⟨ds, hds⟩ := retrieveCore_isOk o s hok
    rw [hds]
    exact ((retrieveCore_spec o s htick honest hok0 hd0 hm0) ds hds).2

/-- Witness for C4. -/
theorem c4_doc_ticker_filter_witness :
    (retrieve_documents docOracle docState).retrieved_docs ≠ [] ∧
    ∀ d ∈ (retrieve_documents docOracle docState).retrieved_docs,
      tickerMatches (tickersUpper docState) d = true := by
  have h := c4_doc_ticker_filter docOracle docState rfl rfl (by decide)
    (fun q ds hq => by
      cases hq
      intro d hd
      rw [List.mem_singleton] at hd
      subst hd
      decide)
    ⟨[aaplDoc], aaplDoc, rfl, List.mem_singleton.mpr rfl, by decide⟩
  exact ⟨h.2.2 (fun q => ⟨[aaplDoc], rfl⟩), h.1⟩

theorem dictInsert_ne_nil (d : List (String × FinDict)) (k : String) (v : FinDict) :
    dictInsert d k v ≠ [] := by
  unfold dictInsert
  split
  · rename_i h
    intro hc
    rw [List.map_eq_nil_iff] at hc
    subst hc
    simp at h
  · simp

theorem foldl_dictInsert_ne_nil (f : String → FinDict) (l : List String)
    (acc : List (String × FinDict)) (h : acc ≠ [] ∨ l ≠ []) :
    l.foldl (fun a t => dictInsert a t (f t)) acc ≠ [] := by
  induction l generalizing acc with
  | nil =>
    rcases h with h | h
    · exact h
    · exact absurd rfl h
  | cons t ts ih =>
    simp only [List.foldl_cons]
    exact ih _ (Or.inl (dictInsert_ne_nil _ _ _))

theorem take5_ne_nil {l : List Doc} (h : l ≠ []) : l.take 5 ≠ [] := by
  intro hc
  rcases List.take_eq_nil_iff.mp hc with h5 | hnil
  · omega
  · exact h hnil

/-- C1: in a pipeline invocation whose input state has all four data fields
at their empty defaults, every need-flag that is false leaves its output
field empty in the final state; and when exactly one need-flag is true (with
the query financial, tickers present for the ticker-scoped fetchers, and the
collaborators returning non-empty results) only that fetcher's output field
is non-empty. -/
theorem c1_skip_invariant (o : Oracle) (s0 : FinancialAgentState)
    (hf0 : s0.fundamental_data = []) (ht0 : s0.technical_data = [])
    (hn0 : s0.news_articles = []) (hd0 : s0.retrieved_docs = []) :
    ((runPipeline o s0).needs_fundamental = false →
      (runPipeline o s0).fundamental_data = []) ∧
    ((runPipeline o s0).needs_technical = false →
      (runPipeline o s0).technical_data = []) ∧
    ((runPipeline o s0).needs_news = false →
      (runPipeline o s0).news_articles = []) ∧
    ((runPipeline o s0).needs_secfiling = false →
      (runPipeline o s0).retrieved_docs = []) ∧
    (let s2 := analyze_user_query o (resolve_query_with_history o s0)
     s2.is_financial = true →
     ((s2.needs_fundamental = true → s2.needs_technical = false →
        s2.needs_news = false → s2.needs_secfiling = false → s2.ticker ≠ [] →
        (runPipeline o s0).fundamental_data ≠ [] ∧
        (runPipeline o s0).technical_data = [] ∧
        (runPipeline o s0).news_articles = [] ∧
        (runPipeline o s0).retrieved_docs = []) ∧
      (s2.needs_fundamental = false → s2.needs_technical = true →
        s2.needs_news = false → s2.needs_secfiling = false → s2.ticker ≠ [] →
        (runPipeline o s0).technical_data ≠ [] ∧
        (runPipeline o s0).fundamental_data = [] ∧
        (runPipeline o s0).news_articles = [] ∧
        (runPipeline o s0).retrieved_docs = []) ∧
      (s2.needs_fundamental = false → s2.needs_technical = false →
        s2.needs_news = true → s2.needs_secfiling = false →
        (∃ ds, gatherNews o s2 = Except.ok ds ∧ dedupBySource ds ≠ []) →
        (runPipeline o s0).news_articles ≠ [] ∧
        (runPipeline o s0).fundamental_data = [] ∧
        (runPipeline o s0).technical_data = [] ∧
        (runPipeline o s0).retrieved_docs = []) ∧
      (s2.needs_fundamental = false → s2.needs_technical = false →
        s2.needs_news = false → s2.needs_secfiling = true →
        (∃ ds, retrieveCore o s2 = Except.ok ds ∧ ds ≠ []) →
        (runPipeline o s0).retrieved_docs ≠ [] ∧
        (runPipeline o s0).fundamental_data = [] ∧
        (runPipeline o s0).technical_data = [] ∧
        (runPipeline o s0).news_articles = []))) := by
  obtain ⟨LF, LT, LN, LS, LI, LK⟩ := runPipeline_flags o s0
  have rF := runPipeline_fundamental_eq o s0
  have rT := runPipeline_technical_eq o s0
  have rN := runPipeline_news_eq o s0
  have rD := runPipeline_docs_eq o s0
  obtain ⟨pF, pT, pN, pD⟩ := analyze_preserves_data o (resolve_query_with_history o s0)
  obtain ⟨qF, qT, qN, qD⟩ := resolve_preserves_data o s0
  have base_f : (analyze_user_query o (resolve_query_with_history o s0)).fundamental_data = [] := by
    rw [pF, qF, hf0]
  have base_t : (analyze_user_query o (resolve_query_with_history o s0)).technical_data = [] := by
    rw [pT, qT, ht0]
  have base_n : (analyze_user_query o (resolve_query_with_history o s0)).news_articles = [] := by
    rw [pN, qN, hn0]
  have base_d : (analyze_user_query o (resolve_query_with_history o s0)).retrieved_docs = [] := by
    rw [pD, qD, hd0]
  have invF : (runPipeline o s0).needs_fundamental = false →
      (runPipeline o s0).fundamental_data = [] := by
    intro h
    rw [LF] at h
    rw [rF, h]
    simp [base_f]
  have invT : (runPipeline o s0).needs_technical = false →
      (runPipeline o s0).technical_data = [] := by
    intro h
    rw [LT] at h
    rw [rT, h]
    simp [base_t]
  have invN : (runPipeline o s0).needs_news = false →
      (runPipeline o s0).news_articles = [] := by
    intro h
    rw [LN] at h
    rw [rN, h]
    simp [base_n]
  have invD : (runPipeline o s0).needs_secfiling = false →
      (runPipeline o s0).retrieved_docs = [] := by
    intro h
    rw [LS] at h
    rw [rD, h]
    simp [base_d]
  refine ⟨invF, invT, invN, invD, ?_⟩
  dsimp only
  intro hfin
  refine ⟨?_, ?_, ?_, ?_⟩
  · intro hF hT hN hS htick
    refine ⟨?_, invT (LT ▸ hT), invN (LN ▸ hN), invD (LS ▸ hS)⟩
    rw [rF]
    simp only [hF, if_true]
    unfold fundamentalResult
    rw [hfin, hF]
    have hts : (analyze_user_query o (resolve_query_with_history o s0)).ticker.isEmpty = false := by
      cases h : (analyze_user_query o (resolve_query_with_history o s0)).ticker.isEmpty
      · rfl
      · exact absurd (List.isEmpty_iff.mp h) htick
    rw [hts]
    simp only [Bool.not_true, Bool.false_or, Bool.or_false, Bool.false_eq_true, if_false]
    exact foldl_dictInsert_ne_nil _ _ _ (Or.inr htick)
  · intro hF hT hN hS htick
    refine ⟨?_, invF (LF ▸ hF), invN (LN ▸ hN), invD (LS ▸ hS)⟩
    rw [rT]
    simp only [hT, if_true]
    unfold technicalResult
    rw [hfin, hT]
    have hts : (analyze_user_query o (resolve_query_with_history o s0)).ticker.isEmpty = false := by
      cases h : (analyze_user_query o (resolve_query_with_history o s0)).ticker.isEmpty
      · rfl
      · exact absurd (List.isEmpty_iff.mp h) htick
    rw [hts]
    simp only [Bool.not_true, Bool.false_or, Bool.or_false, Bool.false_eq_true, if_false]
    exact foldl_dictInsert_ne_nil _ _ _ (Or.inr htick)
  · intro hF hT hN hS hgather
    refine ⟨?_, invF (LF ▸ hF), invT (LT ▸ hT), invD (LS ▸ hS)⟩
    rw [rN]
    simp only [hN, if_true]
    obtain ⟨ds, hg, hne⟩ := hgather
    unfold newsResult
    rw [hfin, hN, hg]
    simp only [Bool.not_true, Bool.or_self, Bool.false_eq_true, if_false]
    exact take5_ne_nil hne
  · intro hF hT hN hS hdocs
    refine ⟨?_, invF (LF ▸ hF), invT (LT ▸ hT), invN (LN ▸ hN)⟩
    rw [rD]
    simp only [hS, if_true]
    obtain ⟨ds, hg, hne⟩ := hdocs
    unfold docsResult
    rw [hfin, hS, hg]
    simp only [Bool.not_true, Bool.or_self, Bool.false_eq_true, if_false]
    exact hne

/-- Witness for C1: a news-only classification fills only `news_articles`. -/
theorem c1_skip_invariant_witness :
    freshState.fundamental_data = [] ∧
    (runPipeline newsOnlyAnalysisOracle freshState).news_articles ≠ [] ∧
    (runPipeline newsOnlyAnalysisOracle freshState).fundamental_data = [] ∧
    (runPipeline newsOnlyAnalysisOracle freshState).technical_data = [] ∧
    (runPipeline newsOnlyAnalysisOracle freshState).retrieved_docs = [] := by
  have h := (c1_skip_invariant newsOnlyAnalysisOracle freshState rfl rfl rfl rfl).2.2.2.2
  dsimp only at h
  have h3 := (h (by decide)).2.2.1 (by decide) (by decide) (by decide) (by decide)
    ⟨[newsDoc "u1"], rfl, by decide⟩
  exact ⟨rfl, h3.1, h3.2.1, h3.2.2.1, h3.2.2.2⟩
